import Mathlib

/-!
Verification of the e-paper kiosk application (`app/main.py`, `app/displayBuses.py`,
`app/displayImages.py`) against its natural-language specification.

The Python modules are shallowly embedded: the refresh-proxy state machine, the
night-window predicate, the transit-arrival pipeline and the frame sequencer become
pure Lean functions; exceptions become `Except`/`Bool` oracles; Python floats that
only ever hold exact ratios of integers become `ℚ`.
-/

/- ===================== main.py : EpdPartialProxy ===================== -/

/-- Which refresh primitive a `display` call ends up invoking on the driver:
`full` is `epd.display(buf)`, `part` is `epd.displayPartial(buf)`. -/
inductive RefreshKind
  | full
  | part
deriving DecidableEq

/-- State of `EpdPartialProxy` (main.py, lines 37-108).  Field names drop the
Python underscore prefix: `_enabled`, `_full_every_n`, `_call_count`, `_base_set`.
The wrapped driver object itself is not part of the state. -/
structure EpdPartialProxy where
  enabled : Bool
  fullEveryN : ℕ
  callCount : ℕ
  baseSet : Bool
deriving DecidableEq

/-- `EpdPartialProxy.__init__`: `self._full_every_n = max(0, int(full_every_n))`,
`self._call_count = 0`, `self._base_set = False`. -/
def EpdPartialProxy.new (full_every_n : ℤ) (enabled : Bool) : EpdPartialProxy :=
  { enabled := enabled
    fullEveryN := (max 0 full_every_n).toNat
    callCount := 0
    baseSet := false }

/-- `EpdPartialProxy.init`: delegates to the driver, then clears the base and counter. -/
def EpdPartialProxy.init (s : EpdPartialProxy) : EpdPartialProxy :=
  { s with baseSet := false, callCount := 0 }

/-- `EpdPartialProxy.Clear`: clears the base and counter, then delegates. -/
def EpdPartialProxy.Clear (s : EpdPartialProxy) : EpdPartialProxy :=
  { s with baseSet := false, callCount := 0 }

/-- `EpdPartialProxy.display(buf)` (main.py, lines 72-104).  The buffer contents do
not influence the control flow and are omitted.  `partRaises` tells whether the
driver's `displayPartial` raises when attempted (the except-branch falls back to a
full `epd.display`).  The best-effort `displayPartBaseImage` try/except swallows its
exception and touches no modelled state, so it does not appear.  Returns the new
state and which refresh primitive was invoked. -/
def EpdPartialProxy.display (s : EpdPartialProxy) (partRaises : Bool) :
    EpdPartialProxy × RefreshKind :=
  if s.enabled = false then
    (s, .full)
  else if s.baseSet = false then
    ({ s with baseSet := true, callCount := 1 }, .full)
  else
    let s' : EpdPartialProxy := { s with callCount := s.callCount + 1 }
    if s'.fullEveryN ≠ 0 ∧ s'.callCount % s'.fullEveryN = 0 then
      (s', .full)
    else if partRaises then
      (s', .full)
    else
      (s', .part)

/-- Proxy states reachable from construction with `full_every_n = fe`,
`enabled = en` by any sequence of `init`, `Clear` and `display` calls. -/
inductive ReachProxy (fe : ℤ) (en : Bool) : EpdPartialProxy → Prop
  | new : ReachProxy fe en (EpdPartialProxy.new fe en)
  | init {s : EpdPartialProxy} : ReachProxy fe en s → ReachProxy fe en s.init
  | clear {s : EpdPartialProxy} : ReachProxy fe en s → ReachProxy fe en s.Clear
  | disp {s : EpdPartialProxy} (partRaises : Bool) :
      ReachProxy fe en s → ReachProxy fe en (s.display partRaises).1

/- ===================== main.py : night window ===================== -/

/-- `is_sleep_hours` (main.py, lines 139-147) with the two configured hours made
explicit arguments (in the source they are the module globals `SLEEP_START_H` and
`SLEEP_END_H` read from the environment). -/
def is_sleep_hours (SLEEP_START_H SLEEP_END_H h : ℤ) : Bool :=
  if SLEEP_START_H > SLEEP_END_H then
    decide (h ≥ SLEEP_START_H) || decide (h < SLEEP_END_H)
  else
    decide (SLEEP_START_H ≤ h) && decide (h < SLEEP_END_H)

/- ===================== displayBuses.py : ETA pipeline ===================== -/

/-- `_clamp_minutes_floor` (displayBuses.py, lines 96-102):
`max(0, math.floor(delta_minutes))`, `None` passed through. -/
def _clamp_minutes_floor : Option ℚ → Option ℤ
  | none => none
  | some d => some (max 0 ⌊d⌋)

/-- One `NextBus*` slot of a service in the API response, abstracted to what the
parsing loop (displayBuses.py, lines 256-267) distinguishes: the entry or its
`EstimatedArrival` is absent/empty (`missing`), `datetime.strptime` raises
(`unparsable`), or the timestamp parses and is `secondsFromNow` seconds away from
`now` (timestamps have whole-second resolution, so the difference is an integer). -/
inductive EtaSlot
  | missing
  | unparsable
  | parsed (secondsFromNow : ℤ)
deriving DecidableEq

/-- The value appended to `etas` for one slot: for a parsed timestamp the code
computes `diff_min = (eta_dt - now).total_seconds() / 60.0` and applies
`_clamp_minutes_floor`; missing/unparsable slots append `None`. -/
def EtaSlot.minutes : EtaSlot → Option ℤ
  | .missing => none
  | .unparsable => none
  | .parsed secs => _clamp_minutes_floor (some ((secs : ℚ) / 60))

/-- One element of the `Services` list of the API response, reduced to the fields
the code reads: `ServiceNo` and the three `NextBus`/`NextBus2`/`NextBus3` slots. -/
structure BusService where
  serviceNo : String
  nextBus : EtaSlot
  nextBus2 : EtaSlot
  nextBus3 : EtaSlot
deriving DecidableEq

/-- The `etas` list built for one service (the loop over
`("NextBus", "NextBus2", "NextBus3")`). -/
def serviceEtas (svc : BusService) : List (Option ℤ) :=
  [svc.nextBus.minutes, svc.nextBus2.minutes, svc.nextBus3.minutes]

/-- `clean = [e for e in etas if e is not None]`. -/
def serviceClean (svc : BusService) : List ℤ :=
  (serviceEtas svc).filterMap id

/-- The minute value computed for one successfully parsed slot:
`max(0, math.floor(total_seconds / 60.0))`. -/
def etaOfSecs (secs : ℤ) : ℤ := max 0 ⌊(secs : ℚ) / 60⌋

/-- The parse-time offsets (in seconds from `now`) of the slots of a service whose
timestamps parse successfully, in slot order. -/
def serviceParsedSecs (svc : BusService) : List ℤ :=
  [svc.nextBus, svc.nextBus2, svc.nextBus3].filterMap
    (fun sl => match sl with | .parsed secs => some secs | _ => none)

/-- The sort key of `out.sort(key=lambda t: (t[1][0] if t[1] else 9999))`. -/
def sortKey : String × List ℤ → ℤ
  | (_, []) => 9999
  | (_, x :: _) => x

/-- Stable insertion of one entry into an already key-sorted list: the entry passes
exactly the entries with a strictly smaller key, so entries with equal keys keep
their original relative order.  Together with `sortByKey` this models Python's
stable `list.sort(key=...)`. -/
def insertByKey (t : String × List ℤ) : List (String × List ℤ) → List (String × List ℤ)
  | [] => [t]
  | u :: us => if sortKey u < sortKey t then u :: insertByKey t us else t :: u :: us

/-- Stable sort by `sortKey`, modelling `out.sort(key=lambda t: ...)`. -/
def sortByKey : List (String × List ℤ) → List (String × List ℤ)
  | [] => []
  | t :: ts => insertByKey t (sortByKey ts)

/-- The contribution of one service to `out`: dropped when `clean` is empty,
otherwise `(svc_no, clean[:3])`. -/
def toRecord (svc : BusService) : Option (String × List ℤ) :=
  let clean := serviceClean svc
  if clean = [] then none else some (svc.serviceNo, clean.take 3)

/-- `get_bus_arrival` (displayBuses.py, lines 229-276) from the parsed `Services`
list onward: build `out` by dropping zero-ETA services, then sort stably by the
soonest ETA.  (The final `list(map(int, mins))` is the identity on the integer
minute values and is omitted.) -/
def get_bus_arrival (services : List BusService) : List (String × List ℤ) :=
  sortByKey (services.filterMap toRecord)

/-- Outcome of the network part of `get_bus_arrival`: missing `API_KEY`, a
`requests.RequestException`, invalid JSON — each of which returns `[]` — or a
parsed response carrying the `Services` list. -/
inductive FetchOutcome
  | noApiKey
  | netError
  | badJson
  | okResp (services : List BusService)

/-- `get_bus_arrival` including its error paths: every failure degrades to `[]`. -/
def get_bus_arrival_net : FetchOutcome → List (String × List ℤ)
  | .noApiKey => []
  | .netError => []
  | .badJson => []
  | .okResp services => get_bus_arrival services

/- ===================== displayBuses.py : show_bus_arrivals ===================== -/

/-- Python truthiness of an optional environment string (`os.getenv` returns
`None` when unset; `""` is falsy too). -/
def truthy : Option String → Bool
  | none => false
  | some s => decide (s ≠ "")

/-- The `STOP_CODE_A/B/C` configuration read by `show_bus_arrivals`. -/
structure BusEnv where
  stopCodeA : Option String
  stopCodeB : Option String
  stopCodeC : Option String

/-- `route_a = get_bus_arrival(code_a) if code_a else []`. -/
def BusEnv.routeA (env : BusEnv) (net : String → FetchOutcome) : List (String × List ℤ) :=
  if truthy env.stopCodeA then get_bus_arrival_net (net (env.stopCodeA.getD "")) else []

/-- `route_b = get_bus_arrival(code_b) if code_b else []`. -/
def BusEnv.routeB (env : BusEnv) (net : String → FetchOutcome) : List (String × List ℤ) :=
  if truthy env.stopCodeB then get_bus_arrival_net (net (env.stopCodeB.getD "")) else []

/-- `route_c = get_bus_arrival(code_c) if code_c else []`. -/
def BusEnv.routeC (env : BusEnv) (net : String → FetchOutcome) : List (String × List ℤ) :=
  if truthy env.stopCodeC then get_bus_arrival_net (net (env.stopCodeC.getD "")) else []

/-- What `show_bus_arrivals` did to the panel: how many `render_bus_screen` calls
and how many `epd.display` calls it performed. -/
structure ShowResult where
  renders : ℕ
  displayCalls : ℕ
deriving DecidableEq

/-- `show_bus_arrivals` (displayBuses.py, lines 280-312).  `displayRaises` tells
whether the final `epd.display(epd.getbuffer(img))` raises; that call is not inside
any try/except, so a raise propagates to the caller (`Except.error`).  The early
returns (`Missing STOP_CODE_A/B/C`, and the all-routes-empty skip) perform no
render and no display call. -/
def show_bus_arrivals (env : BusEnv) (net : String → FetchOutcome)
    (displayRaises : Bool) : Except Unit ShowResult :=
  if !(truthy env.stopCodeA || truthy env.stopCodeB || truthy env.stopCodeC) then
    .ok ⟨0, 0⟩
  else if (env.routeA net).isEmpty && (env.routeB net).isEmpty && (env.routeC net).isEmpty then
    .ok ⟨0, 0⟩
  else if displayRaises then
    .error ()
  else
    .ok ⟨1, 1⟩

/- ===================== displayImages.py : ImageSequencer ===================== -/

/-- State of `ImageSequencer` (displayImages.py, lines 56-127): the discovered
frame paths and the 0-based cursor. -/
structure ImageSequencer where
  paths : List String
  index : ℕ
deriving DecidableEq

/-- `ImageSequencer.reload`: re-scan (the scan result is the `newPaths` argument;
in the source it is `_sorted_frame_paths()`, a filesystem read) and keep the index
within bounds: `self._index %= len(self._paths)` when non-empty, else `0`. -/
def ImageSequencer.reload (s : ImageSequencer) (newPaths : List String) : ImageSequencer :=
  if newPaths.isEmpty then
    { paths := newPaths, index := 0 }
  else
    { paths := newPaths, index := s.index % newPaths.length }

/-- `ImageSequencer.has_frames`: `len(self._paths) > 0`. -/
def ImageSequencer.has_frames (s : ImageSequencer) : Bool :=
  !s.paths.isEmpty

/-- `ImageSequencer.current_path`: `None` when empty, else `self._paths[self._index]`. -/
def ImageSequencer.current_path (s : ImageSequencer) : Option String :=
  if s.paths.isEmpty then none else s.paths.get? s.index

/-- `ImageSequencer.advance`: no-op when empty, else
`self._index = (self._index + 1) % len(self._paths)`. -/
def ImageSequencer.advance (s : ImageSequencer) : ImageSequencer :=
  if s.paths.isEmpty then s else { s with index := (s.index + 1) % s.paths.length }

/-- `ImageSequencer.show_next` (displayImages.py, lines 96-127).  `displayRaises`
tells whether `epd.display(epd.getbuffer(img))` raises for the current frame; the
code catches that exception itself (`except Exception`), advances past the frame
and returns `False`, so `show_next` never propagates an exception.  Returns the new
state and the boolean result. -/
def ImageSequencer.show_next (s : ImageSequencer) (displayRaises : Bool) :
    ImageSequencer × Bool :=
  if s.paths.isEmpty then
    (s, false)
  else
    match s.current_path with
    | none => (s, false)
    | some path =>
      if path = "" then (s, false)
      else if displayRaises then (s.advance, false)
      else (s.advance, true)

/-- `show_image_loop` (displayImages.py, lines 152-159): reload when no frames are
known, then `show_next`.  `rescan` is the frame set a reload would discover. -/
def show_image_loop (s : ImageSequencer) (rescan : List String) (displayRaises : Bool) :
    ImageSequencer × Bool :=
  let s1 := if !s.has_frames then s.reload rescan else s
  s1.show_next displayRaises

/- ===================== main.py : day branch of the scheduler ===================== -/

/-- The `for _ in range(max(1, IMAGES_PER_CYCLE))` loop of the day branch
(main.py, lines 211-215): `n` iterations of `show_image_loop`, collecting each
call's boolean result.  `frameRaises i` tells whether the display raises on the
i-th frame of the cycle (those exceptions are caught inside `show_next`). -/
def runFrames (rescan : List String) (frameRaises : ℕ → Bool) :
    ℕ → ImageSequencer → ImageSequencer × List Bool
  | 0, s => (s, [])
  | k + 1, s =>
    let step := show_image_loop s rescan (frameRaises k)
    let rest := runFrames rescan frameRaises k step.1
    (rest.1, step.2 :: rest.2)

/-- What one day-branch iteration (main.py, lines 208-218) did: the results of the
`show_image_loop` calls, the sequencer state afterwards, and the outcome of the
`displayBuses.show_bus_arrivals(epd)` call.  Neither call is wrapped in a
try/except in the day branch, so `bus = .error` means the exception propagates out
of the `while` loop body. -/
structure DayOutcome where
  frameResults : List Bool
  seq : ImageSequencer
  bus : Except Unit ShowResult

/-- One iteration of the day branch: `IMAGES_PER_CYCLE` is the raw configured
integer; the loop runs `max(1, IMAGES_PER_CYCLE)` times, then the bus screen is
shown. -/
def dayBranch (IMAGES_PER_CYCLE : ℤ) (seq : ImageSequencer) (rescan : List String)
    (frameRaises : ℕ → Bool) (env : BusEnv) (net : String → FetchOutcome)
    (busDisplayRaises : Bool) : DayOutcome :=
  let frames := runFrames rescan frameRaises (max 1 IMAGES_PER_CYCLE).toNat seq
  { frameResults := frames.2
    seq := frames.1
    bus := show_bus_arrivals env net busDisplayRaises }

/-- `iters` scheduled day-branch iterations of the `while not _shutdown` loop.
An uncaught exception in an iteration leaves the loop (it is only intercepted by
the `except KeyboardInterrupt` / `finally` teardown outside the loop): the run
stops, reporting how many iterations completed and whether it crashed. -/
def runDayLoop (IMAGES_PER_CYCLE : ℤ) (rescan : List String) (frameRaises : ℕ → Bool)
    (env : BusEnv) (net : String → FetchOutcome) (busDisplayRaises : Bool) :
    ℕ → ImageSequencer → ℕ × Bool
  | 0, _ => (0, false)
  | iters + 1, seq =>
    let o := dayBranch IMAGES_PER_CYCLE seq rescan frameRaises env net busDisplayRaises
    match o.bus with
    | .error _ => (0, true)
    | .ok _ =>
      let rest := runDayLoop IMAGES_PER_CYCLE rescan frameRaises env net
        busDisplayRaises iters o.seq
      (rest.1 + 1, rest.2)

/- ===================== Helper lemmas ===================== -/

lemma minutes_missing : EtaSlot.missing.minutes = none := rfl

lemma minutes_unparsable : EtaSlot.unparsable.minutes = none := rfl

lemma minutes_parsed (s : ℤ) : (EtaSlot.parsed s).minutes = some (max 0 (s / 60)) := by
  show some (max 0 ⌊(s : ℚ) / 60⌋) = _
  rw [show ((60 : ℚ)) = ((60 : ℕ) : ℚ) by norm_num, Rat.floor_intCast_div_natCast]
  norm_num

lemma max_floor_comm (d : ℚ) : max 0 ⌊d⌋ = ⌊max 0 d⌋ := by
  rcases le_total d 0 with h | h
  · rw [max_eq_left h, Int.floor_zero, max_eq_left (Int.floor_nonpos h)]
  · rw [max_eq_right h, max_eq_right (Int.floor_nonneg.mpr h)]

lemma display_noBase (s : EpdPartialProxy) (pr : Bool) (hen : s.enabled = true)
    (hb : s.baseSet = false) :
    s.display pr = ({ s with baseSet := true, callCount := 1 }, .full) := by
  simp [EpdPartialProxy.display, hen, hb]

lemma display_base_state (s : EpdPartialProxy) (pr : Bool) (hen : s.enabled = true)
    (hb : s.baseSet = true) :
    (s.display pr).1 = { s with callCount := s.callCount + 1 } := by
  by_cases hc : s.fullEveryN ≠ 0 ∧ (s.callCount + 1) % s.fullEveryN = 0
  · simp [EpdPartialProxy.display, hen, hb, hc]
  · cases pr <;> simp [EpdPartialProxy.display, hen, hb, hc]

lemma display_forced (s : EpdPartialProxy) (pr : Bool) (hen : s.enabled = true)
    (hb : s.baseSet = true) (hk : s.fullEveryN ≠ 0)
    (hm : (s.callCount + 1) % s.fullEveryN = 0) :
    (s.display pr).2 = .full := by
  simp [EpdPartialProxy.display, hen, hb, hk, hm]

lemma display_part (s : EpdPartialProxy) (hen : s.enabled = true)
    (hb : s.baseSet = true) (hm : ¬ (s.fullEveryN ≠ 0 ∧ (s.callCount + 1) % s.fullEveryN = 0)) :
    (s.display false).2 = .part := by
  simp only [EpdPartialProxy.display, hen, hb]
  rw [if_neg (by simp), if_neg hm]
  rfl

lemma display_fallback (s : EpdPartialProxy) (hen : s.enabled = true)
    (hb : s.baseSet = true) (hm : ¬ (s.fullEveryN ≠ 0 ∧ (s.callCount + 1) % s.fullEveryN = 0)) :
    (s.display true).2 = .full := by
  simp only [EpdPartialProxy.display, hen, hb]
  rw [if_neg (by simp), if_neg hm]
  rfl

lemma reach_invariant {fe : ℤ} {en : Bool} {s : EpdPartialProxy}
    (h : ReachProxy fe en s) :
    s.enabled = en ∧ (s.baseSet = true → 1 ≤ s.callCount)
      ∧ (s.baseSet = false → s.callCount = 0) := by
  induction h with
  | new => simp [EpdPartialProxy.new]
  | init h ih => exact ⟨ih.1, by simp [EpdPartialProxy.init], by simp [EpdPartialProxy.init]⟩
  | clear h ih => exact ⟨ih.1, by simp [EpdPartialProxy.Clear], by simp [EpdPartialProxy.Clear]⟩
  | disp pr h ih =>
    rename_i t
    by_cases hen : t.enabled = true
    · by_cases hb : t.baseSet = true
      · rw [display_base_state t pr hen hb]
        exact ⟨ih.1, fun _ => Nat.le_add_left 1 t.callCount, by simp [hb]⟩
      · rw [display_noBase t pr hen (by simpa using hb)]
        exact ⟨ih.1, fun _ => le_refl 1, by simp⟩
    · have : t.display pr = (t, .full) := by
        simp [EpdPartialProxy.display, by simpa using hen]
      rw [this]
      exact ih

lemma advance_iterate (k : ℕ) (s : ImageSequencer) (hne : s.paths ≠ [])
    (hidx : s.index < s.paths.length) :
    ImageSequencer.advance^[k] s = ⟨s.paths, (s.index + k) % s.paths.length⟩ := by
  induction k generalizing s with
  | zero =>
    cases s with
    | mk paths index => simp [Nat.mod_eq_of_lt hidx]
  | succ k ih =>
    rw [Function.iterate_succ_apply]
    have hlen : 0 < s.paths.length := List.length_pos.mpr hne
    have hadv : s.advance = ⟨s.paths, (s.index + 1) % s.paths.length⟩ := by
      simp [ImageSequencer.advance, List.isEmpty_iff, hne]
    rw [hadv, ih ⟨s.paths, (s.index + 1) % s.paths.length⟩ hne (Nat.mod_lt _ hlen)]
    simp only [Nat.mod_add_mod]
    rw [show s.index + 1 + k = s.index + (k + 1) from by omega]

lemma runFrames_length (rescan : List String) (fr : ℕ → Bool) (n : ℕ) (s : ImageSequencer) :
    (runFrames rescan fr n s).2.length = n := by
  induction n generalizing s with
  | zero => rfl
  | succ n ih => simp [runFrames, ih]

lemma routeA_of_empty (env : BusEnv) (net : String → FetchOutcome)
    (h : truthy env.stopCodeA = true → get_bus_arrival_net (net (env.stopCodeA.getD "")) = []) :
    env.routeA net = [] := by
  unfold BusEnv.routeA
  by_cases ht : truthy env.stopCodeA = true
  · rw [if_pos ht]; exact h ht
  · rw [if_neg ht]

lemma routeB_of_empty (env : BusEnv) (net : String → FetchOutcome)
    (h : truthy env.stopCodeB = true → get_bus_arrival_net (net (env.stopCodeB.getD "")) = []) :
    env.routeB net = [] := by
  unfold BusEnv.routeB
  by_cases ht : truthy env.stopCodeB = true
  · rw [if_pos ht]; exact h ht
  · rw [if_neg ht]

lemma routeC_of_empty (env : BusEnv) (net : String → FetchOutcome)
    (h : truthy env.stopCodeC = true → get_bus_arrival_net (net (env.stopCodeC.getD "")) = []) :
    env.routeC net = [] := by
  unfold BusEnv.routeC
  by_cases ht : truthy env.stopCodeC = true
  · rw [if_pos ht]; exact h ht
  · rw [if_neg ht]

lemma show_bus_arrivals_noRaise (env : BusEnv) (net : String → FetchOutcome) :
    ∃ r : ShowResult, show_bus_arrivals env net false = .ok r := by
  unfold show_bus_arrivals
  split
  · exact ⟨_, rfl⟩
  split
  · exact ⟨_, rfl⟩
  split
  · simp_all
  · exact ⟨_, rfl⟩

lemma runDayLoop_noRaise (IMAGES_PER_CYCLE : ℤ) (rescan : List String) (fr : ℕ → Bool)
    (env : BusEnv) (net : String → FetchOutcome) (iters : ℕ) (seq : ImageSequencer) :
    runDayLoop IMAGES_PER_CYCLE rescan fr env net false iters seq = (iters, false) := by
  induction iters generalizing seq with
  | zero => rfl
  | succ n ih =>
    obtain ⟨r, hr⟩ := show_bus_arrivals_noRaise env net
    unfold runDayLoop
    simp only [dayBranch, hr, ih]

lemma insertByKey_perm (t : String × List ℤ) (l : List (String × List ℤ)) :
    (insertByKey t l).Perm (t :: l) := by
  induction l with
  | nil => exact List.Perm.refl _
  | cons u us ih =>
    unfold insertByKey
    split
    · exact (ih.cons u).trans (List.Perm.swap t u us)
    · exact List.Perm.refl _

lemma mem_insertByKey {u t : String × List ℤ} {l : List (String × List ℤ)} :
    u ∈ insertByKey t l ↔ u = t ∨ u ∈ l := by
  rw [(insertByKey_perm t l).mem_iff]
  simp

lemma sortByKey_perm (l : List (String × List ℤ)) : (sortByKey l).Perm l := by
  induction l with
  | nil => exact List.Perm.refl _
  | cons t ts ih => exact (insertByKey_perm t (sortByKey ts)).trans (ih.cons t)

lemma insertByKey_pairwise {t : String × List ℤ} {l : List (String × List ℤ)}
    (h : l.Pairwise (fun a b => sortKey a ≤ sortKey b)) :
    (insertByKey t l).Pairwise (fun a b => sortKey a ≤ sortKey b) := by
  induction l with
  | nil => simp [insertByKey]
  | cons u us ih =>
    rcases List.pairwise_cons.mp h with ⟨hu, hus⟩
    unfold insertByKey
    split
    · rename_i hlt
      refine List.pairwise_cons.mpr ⟨?_, ih hus⟩
      intro v hv
      rcases mem_insertByKey.mp hv with rfl | hv'
      · exact le_of_lt hlt
      · exact hu v hv'
    · rename_i hnlt
      refine List.pairwise_cons.mpr ⟨?_, h⟩
      intro v hv
      rcases List.mem_cons.mp hv with rfl | hv'
      · exact le_of_not_lt hnlt
      · exact le_trans (le_of_not_lt hnlt) (hu v hv')

lemma sortByKey_pairwise (l : List (String × List ℤ)) :
    (sortByKey l).Pairwise (fun a b => sortKey a ≤ sortKey b) := by
  induction l with
  | nil => simp [sortByKey]
  | cons t ts ih => exact insertByKey_pairwise ih

lemma insertByKey_filter (k : ℤ) (t : String × List ℤ) (l : List (String × List ℤ)) :
    (insertByKey t l).filter (fun a => sortKey a == k)
      = if sortKey t == k then t :: l.filter (fun a => sortKey a == k)
        else l.filter (fun a => sortKey a == k) := by
  induction l with
  | nil => by_cases hk : (sortKey t == k) = true <;> simp [insertByKey, hk]
  | cons u us ih =>
    unfold insertByKey
    split
    · rename_i hlt
      by_cases hk : (sortKey t == k) = true
      · have huk : (sortKey u == k) = false := by
          have hne : sortKey u ≠ k := by
            have := beq_iff_eq.mp hk
            omega
          simpa using hne
        simp [List.filter_cons, huk, ih, hk]
      · simp [List.filter_cons, ih, hk]
    · by_cases hk : (sortKey t == k) = true <;> simp [List.filter_cons, hk]

lemma sortByKey_filter (k : ℤ) (l : List (String × List ℤ)) :
    (sortByKey l).filter (fun a => sortKey a == k) = l.filter (fun a => sortKey a == k) := by
  induction l with
  | nil => rfl
  | cons t ts ih =>
    show (insertByKey t (sortByKey ts)).filter _ = _
    rw [insertByKey_filter]
    by_cases hk : (sortKey t == k) = true <;> simp [List.filter_cons, hk, ih]

lemma serviceClean_length_le (svc : BusService) : (serviceClean svc).length ≤ 3 := by
  have h := List.length_filterMap_le id (serviceEtas svc)
  simpa [serviceEtas] using h

lemma serviceClean_take (svc : BusService) : (serviceClean svc).take 3 = serviceClean svc :=
  List.take_of_length_le (serviceClean_length_le svc)

lemma serviceClean_eq_map (svc : BusService) :
    serviceClean svc = (serviceParsedSecs svc).map etaOfSecs := by
  rcases svc with ⟨no, s1, s2, s3⟩
  cases s1 <;> cases s2 <;> cases s3 <;>
    simp [serviceClean, serviceEtas, serviceParsedSecs, EtaSlot.minutes,
      _clamp_minutes_floor, etaOfSecs]

lemma etaOfSecs_mono {a b : ℤ} (h : a ≤ b) : etaOfSecs a ≤ etaOfSecs b := by
  unfold etaOfSecs
  refine max_le_max le_rfl (Int.floor_mono ?_)
  exact div_le_div_of_nonneg_right (by exact_mod_cast h) (by norm_num)

lemma etaOfSecs_nonneg (s : ℤ) : 0 ≤ etaOfSecs s := le_max_left 0 _

/- ===================== Claim theorems ===================== -/

/-- Claim C2: for the refresh proxy with the feature enabled and any
`fullEveryN > 0`, the first `display` after `init`/`Clear` performs a full refresh
and sets the baseline (callCount 1); every subsequent call whose call count `N`
satisfies `N % fullEveryN = 0` performs a full refresh; every other subsequent call
performs a partial refresh, and if the partial-refresh primitive raises, that
single call falls back to a full refresh without altering `baseSet`. -/
theorem C2_refresh_proxy_modes (s : EpdPartialProxy) (pr pr1 : Bool)
    (hen : s.enabled = true) (hk : 0 < s.fullEveryN) :
    s.init.display pr = ({ s.init with baseSet := true, callCount := 1 }, .full)
    ∧ s.Clear.display pr = ({ s.Clear with baseSet := true, callCount := 1 }, .full)
    ∧ (s.baseSet = true → (s.callCount + 1) % s.fullEveryN = 0 →
        s.display pr1 = ({ s with callCount := s.callCount + 1 }, .full))
    ∧ (s.baseSet = true → (s.callCount + 1) % s.fullEveryN ≠ 0 →
        s.display false = ({ s with callCount := s.callCount + 1 }, .part)
        ∧ s.display true = ({ s with callCount := s.callCount + 1 }, .full)
        ∧ (s.display true).1.baseSet = s.baseSet) := by
  have hkne : s.fullEveryN ≠ 0 := Nat.pos_iff_ne_zero.mp hk
  refine ⟨?_, ?_, ?_, ?_⟩
  · exact display_noBase s.init pr hen rfl
  · exact display_noBase s.Clear pr hen rfl
  · intro hb hm
    have h1 := display_base_state s pr1 hen hb
    have h2 := display_forced s pr1 hen hb hkne hm
    exact Prod.ext h1 h2
  · intro hb hm
    have hcond : ¬ (s.fullEveryN ≠ 0 ∧ (s.callCount + 1) % s.fullEveryN = 0) :=
      fun hc => hm hc.2
    refine ⟨Prod.ext (display_base_state s false hen hb) (display_part s hen hb hcond),
      Prod.ext (display_base_state s true hen hb) (display_fallback s hen hb hcond), ?_⟩
    rw [display_base_state s true hen hb, hb]

/-- Witness for C2 at a concrete enabled proxy state with `fullEveryN = 3`. -/
theorem C2_witness :
    (⟨true, 3, 1, true⟩ : EpdPartialProxy).display false
      = (⟨true, 3, 2, true⟩, .part) := by
  have h := C2_refresh_proxy_modes ⟨true, 3, 1, true⟩ false false rfl (by decide)
  exact (h.2.2.2 rfl (by decide)).1

/-- Claim C3: in every reachable proxy state, callCount resets to 0 or 1 exactly at
baseline (re)establishment — `init`/`Clear` clear the base and zero the counter, the
baseline-establishing first `display` sets it to 1 — a full refresh is forced when
`fullEveryN > 0` and the updated callCount is divisible by it, and a forced
periodic full refresh does not reset the counter (it becomes `callCount + 1 ≥ 2`). -/
theorem C3_callcount_baseline_invariant (fe : ℤ) (en : Bool) (s : EpdPartialProxy)
    (hr : ReachProxy fe en s) :
    (s.init.callCount = 0 ∧ s.init.baseSet = false)
    ∧ (s.Clear.callCount = 0 ∧ s.Clear.baseSet = false)
    ∧ (s.baseSet = false → s.callCount = 0)
    ∧ (s.baseSet = true → 1 ≤ s.callCount)
    ∧ (∀ pr : Bool, s.enabled = true → s.baseSet = false →
        (s.display pr).1.callCount = 1 ∧ (s.display pr).1.baseSet = true
          ∧ (s.display pr).2 = .full)
    ∧ (∀ pr : Bool, s.enabled = true → s.baseSet = true →
        (s.display pr).1.callCount = s.callCount + 1 ∧ 2 ≤ (s.display pr).1.callCount
          ∧ (s.display pr).1.baseSet = true)
    ∧ (∀ pr : Bool, s.enabled = true → s.baseSet = true → s.fullEveryN ≠ 0 →
        (s.callCount + 1) % s.fullEveryN = 0 → (s.display pr).2 = .full) := by
  obtain ⟨heq, h1, h0⟩ := reach_invariant hr
  refine ⟨⟨rfl, rfl⟩, ⟨rfl, rfl⟩, h0, h1, ?_, ?_, ?_⟩
  · intro pr hen hb
    rw [display_noBase s pr hen hb]
    exact ⟨rfl, rfl, rfl⟩
  · intro pr hen hb
    rw [display_base_state s pr hen hb]
    exact ⟨rfl, Nat.succ_le_succ (h1 hb), hb⟩
  · intro pr hen hb hk hm
    exact display_forced s pr hen hb hk hm

/-- Witness for C3 at the reachable state after construction and one display. -/
theorem C3_witness :
    1 ≤ ((EpdPartialProxy.new 3 true).display false).1.callCount
    ∧ (((EpdPartialProxy.new 3 true).display false).1.display false).1.callCount = 2 := by
  have h := C3_callcount_baseline_invariant 3 true
    ((EpdPartialProxy.new 3 true).display false).1 (ReachProxy.disp false ReachProxy.new)
  refine ⟨h.2.2.2.1 (by decide), ?_⟩
  have h2 := (h.2.2.2.2.2.1 false (by decide) (by decide)).1
  rw [h2]
  decide

/-- Claim C5: the minutes-until-arrival of a parsed timestamp `secs` seconds from
now is `⌊max 0 (secs / 60)⌋` (equivalently `max 0 ⌊secs / 60⌋` as the code writes
it): now yields 0, 90 seconds in the future yields 1, any past timestamp yields 0;
a missing or unparsable timestamp contributes no value. -/
theorem C5_eta_floor_clamp (secs : ℤ) :
    (EtaSlot.parsed secs).minutes = some ⌊max 0 ((secs : ℚ) / 60)⌋
    ∧ (EtaSlot.parsed 0).minutes = some 0
    ∧ (EtaSlot.parsed 90).minutes = some 1
    ∧ (secs < 0 → (EtaSlot.parsed secs).minutes = some 0)
    ∧ EtaSlot.missing.minutes = none
    ∧ EtaSlot.unparsable.minutes = none := by
  refine ⟨?_, ?_, ?_, ?_, rfl, rfl⟩
  · show some (max 0 ⌊(secs : ℚ) / 60⌋) = _
    rw [max_floor_comm]
  · rw [minutes_parsed]; decide
  · rw [minutes_parsed]; decide
  · intro hneg
    show some (max 0 ⌊(secs : ℚ) / 60⌋) = some 0
    have hx : (secs : ℚ) / 60 ≤ 0 :=
      div_nonpos_iff.mpr (Or.inr ⟨by exact_mod_cast hneg.le, by norm_num⟩)
    rw [max_eq_left (Int.floor_nonpos hx)]

/-- Witness for C5 at a timestamp 30 seconds in the past. -/
theorem C5_witness : (EtaSlot.parsed (-30)).minutes = some 0 :=
  (C5_eta_floor_clamp (-30)).2.2.2.1 (by decide)

/-- Claim C7: the night-mode predicate holds of an hour exactly when the hour lies
in the configured window, with the midnight-wrapping reading for `start > end` and
the same-day reading otherwise. -/
theorem C7_night_window_predicate (s e hr : ℤ) :
    is_sleep_hours s e hr = true ↔
      (if s > e then hr ≥ s ∨ hr < e else s ≤ hr ∧ hr < e) := by
  unfold is_sleep_hours
  by_cases hc : s > e
  · simp [hc]
  · simp [hc]

/-- Claim C9: advancing a non-empty sequencer `count` times returns the cursor to
its starting index, and after a reload the cursor is within the bounds of the newly
discovered set (or 0 when it is empty). -/
theorem C9_sequencer_cycle_and_reload (s : ImageSequencer) (newPaths : List String)
    (hne : s.paths ≠ []) (hidx : s.index < s.paths.length) :
    (ImageSequencer.advance^[s.paths.length] s).index = s.index
    ∧ (newPaths ≠ [] → (s.reload newPaths).index < newPaths.length)
    ∧ (newPaths = [] → (s.reload newPaths).index = 0) := by
  refine ⟨?_, ?_, ?_⟩
  · rw [advance_iterate s.paths.length s hne hidx]
    show (s.index + s.paths.length) % s.paths.length = s.index
    rw [Nat.add_mod_right, Nat.mod_eq_of_lt hidx]
  · intro h
    unfold ImageSequencer.reload
    rw [if_neg (by simpa [List.isEmpty_iff] using h)]
    exact Nat.mod_lt _ (List.length_pos.mpr h)
  · intro h
    unfold ImageSequencer.reload
    rw [if_pos (by simpa [List.isEmpty_iff] using h)]

/-- Witness for C9 on a three-frame sequencer starting at cursor 1. -/
theorem C9_witness :
    (ImageSequencer.advance^[3] (⟨["a", "b", "c"], 1⟩ : ImageSequencer)).index = 1
    ∧ ((⟨["a", "b", "c"], 1⟩ : ImageSequencer).reload ["x"]).index < 1 := by
  have h := C9_sequencer_cycle_and_reload ⟨["a", "b", "c"], 1⟩ ["x"]
    (by decide) (by decide)
  exact ⟨h.1, h.2.1 (by decide)⟩

/-- Claim C10: every day-branch iteration attempts `max(1, IMAGES_PER_CYCLE)`
decorative-frame presentations — at least one, even for a zero or negative
configured count. -/
theorem C10_frames_per_cycle (IMAGES_PER_CYCLE : ℤ) (seq : ImageSequencer)
    (rescan : List String) (fr : ℕ → Bool) (env : BusEnv)
    (net : String → FetchOutcome) (pr : Bool) :
    (dayBranch IMAGES_PER_CYCLE seq rescan fr env net pr).frameResults.length
        = (max 1 IMAGES_PER_CYCLE).toNat
    ∧ 1 ≤ (dayBranch IMAGES_PER_CYCLE seq rescan fr env net pr).frameResults.length := by
  have hlen : (dayBranch IMAGES_PER_CYCLE seq rescan fr env net pr).frameResults.length
      = (max 1 IMAGES_PER_CYCLE).toNat := by
    simp [dayBranch, runFrames_length]
  refine ⟨hlen, ?_⟩
  rw [hlen]
  exact Int.toNat_le_toNat (le_max_left 1 IMAGES_PER_CYCLE)

/-- Claim C8: if every configured (truthy) stop code yields an empty fetch result,
the transit-screen step returns early: no render and no panel display call, whatever
the display capability would have done. -/
theorem C8_skip_on_all_empty (env : BusEnv) (net : String → FetchOutcome) (pr : Bool)
    (ha : truthy env.stopCodeA = true → get_bus_arrival_net (net (env.stopCodeA.getD "")) = [])
    (hb : truthy env.stopCodeB = true → get_bus_arrival_net (net (env.stopCodeB.getD "")) = [])
    (hc : truthy env.stopCodeC = true → get_bus_arrival_net (net (env.stopCodeC.getD "")) = []) :
    show_bus_arrivals env net pr = .ok ⟨0, 0⟩ := by
  have hA := routeA_of_empty env net ha
  have hB := routeB_of_empty env net hb
  have hC := routeC_of_empty env net hc
  unfold show_bus_arrivals
  split
  · rfl
  · rw [if_pos (by simp [hA, hB, hC])]

/-- Witness for C8: one configured stop code whose fetch hits a network error. -/
theorem C8_witness :
    show_bus_arrivals ⟨some "83139", none, some ""⟩ (fun _ => .netError) true
      = .ok ⟨0, 0⟩ :=
  C8_skip_on_all_empty ⟨some "83139", none, some ""⟩ (fun _ => .netError) true
    (fun _ => rfl) (fun _ => rfl) (fun _ => rfl)

/-- Claim C4: the fetch result drops every service with zero computed minute
values, keeps at most the first three minute values per surviving service, and is
the original surviving-service list stably sorted ascending by the first (soonest)
ETA: it is a permutation of the filtered list, pairwise sorted on the key (the
first ETA for the non-empty lists that survive), and each key class keeps the
original order (stability = ties keep the original service order). -/
theorem C4_fetch_sorted_filtered (services : List BusService) :
    (∀ r ∈ get_bus_arrival services,
        r.2 ≠ [] ∧ r.2.length ≤ 3 ∧ ∃ svc ∈ services, toRecord svc = some r)
    ∧ (get_bus_arrival services).Perm (services.filterMap toRecord)
    ∧ (get_bus_arrival services).Pairwise (fun a b => sortKey a ≤ sortKey b)
    ∧ (∀ r ∈ get_bus_arrival services, sortKey r = r.2.headI)
    ∧ (∀ k : ℤ, (get_bus_arrival services).filter (fun t => sortKey t == k)
        = (services.filterMap toRecord).filter (fun t => sortKey t == k)) := by
  have hperm : (get_bus_arrival services).Perm (services.filterMap toRecord) :=
    sortByKey_perm _
  have hrec : ∀ (svc : BusService) (r : String × List ℤ), toRecord svc = some r →
      r.2 ≠ [] ∧ r.2.length ≤ 3 := by
    intro svc r h
    by_cases hcl : serviceClean svc = []
    · simp [toRecord, hcl] at h
    · rw [toRecord] at h
      simp only [hcl, if_neg, if_false] at h
      rw [serviceClean_take] at h
      obtain rfl := Option.some.inj h
      exact ⟨hcl, serviceClean_length_le svc⟩
  have hmem : ∀ r ∈ get_bus_arrival services, ∃ svc ∈ services, toRecord svc = some r := by
    intro r hr
    exact List.mem_filterMap.mp (hperm.mem_iff.mp hr)
  refine ⟨?_, hperm, sortByKey_pairwise _, ?_, fun k => sortByKey_filter k _⟩
  · intro r hr
    obtain ⟨svc, hsvc, h⟩ := hmem r hr
    exact ⟨(hrec svc r h).1, (hrec svc r h).2, svc, hsvc, h⟩
  · intro r hr
    obtain ⟨svc, hsvc, h⟩ := hmem r hr
    have hne := (hrec svc r h).1
    rcases r with ⟨name, l⟩
    cases l with
    | nil => exact absurd rfl hne
    | cons x xs => rfl

/-- Witness for C4 on a two-service response whose soonest ETAs are out of order. -/
theorem C4_witness :
    (("7", ([0] : List ℤ)) : String × List ℤ).2.length ≤ 3
    ∧ ∃ svc ∈ [(⟨"12", .parsed 600, .missing, .missing⟩ : BusService),
        ⟨"7", .parsed 0, .missing, .missing⟩], toRecord svc = some ("7", [0]) := by
  have hval : get_bus_arrival [(⟨"12", .parsed 600, .missing, .missing⟩ : BusService),
      ⟨"7", .parsed 0, .missing, .missing⟩] = [("7", [0]), ("12", [10])] := by
    simp [get_bus_arrival, toRecord, serviceClean, serviceEtas, minutes_parsed,
      minutes_missing, sortByKey, insertByKey, sortKey]
  have h := C4_fetch_sorted_filtered [⟨"12", .parsed 600, .missing, .missing⟩,
      ⟨"7", .parsed 0, .missing, .missing⟩]
  have hm : (("7", ([0] : List ℤ)) : String × List ℤ) ∈ get_bus_arrival
      [(⟨"12", .parsed 600, .missing, .missing⟩ : BusService),
        ⟨"7", .parsed 0, .missing, .missing⟩] := by
    rw [hval]
    exact List.mem_cons_self _ _
  exact ⟨(h.1 _ hm).2.1, (h.1 _ hm).2.2⟩

/-- Counterexample to claim C6: a response whose second slot arrives sooner than
its first (NextBus in 20 minutes, NextBus2 in 5 minutes) produces the record
`("12", [20, 5])`, whose entries are not monotonically non-decreasing. -/
theorem C6_counterexample :
    ¬ ∀ r ∈ get_bus_arrival [⟨"12", .parsed 1200, .parsed 300, .missing⟩],
        List.Chain' (· ≤ ·) r.2 := by
  intro hAll
  have hval : get_bus_arrival [⟨"12", .parsed 1200, .parsed 300, .missing⟩]
      = [("12", [20, 5])] := by
    simp [get_bus_arrival, toRecord, serviceClean, serviceEtas, minutes_parsed,
      minutes_missing, sortByKey, insertByKey]
  have hmem : (("12", [20, 5]) : String × List ℤ)
      ∈ get_bus_arrival [⟨"12", .parsed 1200, .parsed 300, .missing⟩] := by
    rw [hval]
    exact List.mem_singleton_self _
  have hle : (20 : ℤ) ≤ 5 := (List.chain'_cons.mp (hAll _ hmem)).1
  omega

/-- Amended claim C6: every record the fetcher returns has 1 to 3 non-negative
entries and comes from some service of the response; the entries are monotonically
non-decreasing whenever that service's successfully parsed arrival offsets are
non-decreasing (the code does not reorder minutes within a service). -/
theorem C6_amended_record_shape (services : List BusService) (r : String × List ℤ)
    (hr : r ∈ get_bus_arrival services) :
    r.2 ≠ [] ∧ r.2.length ≤ 3 ∧ (∀ x ∈ r.2, 0 ≤ x)
    ∧ ∃ svc ∈ services, toRecord svc = some r
        ∧ (List.Chain' (· ≤ ·) (serviceParsedSecs svc) → List.Chain' (· ≤ ·) r.2) := by
  have hperm := sortByKey_perm (services.filterMap toRecord)
  obtain ⟨svc, hsvc, hrec⟩ := List.mem_filterMap.mp (hperm.mem_iff.mp hr)
  by_cases hcl : serviceClean svc = []
  · simp [toRecord, hcl] at hrec
  · have hrec' := hrec
    rw [toRecord] at hrec'
    simp only [hcl, if_neg, if_false] at hrec'
    rw [serviceClean_take] at hrec'
    obtain rfl := Option.some.inj hrec'
    refine ⟨hcl, serviceClean_length_le svc, ?_, svc, hsvc, hrec, ?_⟩
    · intro x hx
      rw [serviceClean_eq_map] at hx
      obtain ⟨secs, _, rfl⟩ := List.mem_map.mp hx
      exact etaOfSecs_nonneg secs
    · intro hch
      show List.Chain' (· ≤ ·) (serviceClean svc)
      rw [serviceClean_eq_map]
      exact List.chain'_map_of_chain' etaOfSecs (fun a b hab => etaOfSecs_mono hab) hch

/-- Witness for the amended C6 on a service whose two parsed slots are in order. -/
theorem C6_witness :
    (("7", ([1, 5] : List ℤ)) : String × List ℤ).2 ≠ []
    ∧ List.Chain' (· ≤ ·) (("7", ([1, 5] : List ℤ)) : String × List ℤ).2 := by
  have hval : get_bus_arrival [⟨"7", .parsed 60, .parsed 300, .missing⟩]
      = [("7", [1, 5])] := by
    simp [get_bus_arrival, toRecord, serviceClean, serviceEtas, minutes_parsed,
      minutes_missing, sortByKey, insertByKey]
  have h := C6_amended_record_shape [⟨"7", .parsed 60, .parsed 300, .missing⟩]
    ("7", [1, 5]) (by rw [hval]; exact List.mem_singleton_self _)
  refine ⟨h.1, ?_⟩
  obtain ⟨svc, hsvc, hrec, hchain⟩ := h.2.2.2
  have hsvc' : svc = ⟨"7", .parsed 60, .parsed 300, .missing⟩ := by
    simpa using hsvc
  subst hsvc'
  refine hchain ?_
  show List.Chain' (· ≤ ·) [60, 300]
  exact List.chain'_cons.mpr ⟨by norm_num, List.chain'_singleton _⟩

/-- Amended claim C1: in the day branch, exceptions while presenting a decorative
frame are caught inside the frame presenter (`show_next` advances past the frame),
and fetch failures degrade to empty results, so with a non-raising transit display
every scheduled iteration completes whatever the frame oracle says; but the transit
`epd.display` call is not guarded in the day branch: an iteration raises exactly
when the transit screen is reached and its display raises, and that exception
terminates the loop with no further iterations. -/
theorem C1_day_branch_exceptions (IMAGES_PER_CYCLE : ℤ) (rescan : List String)
    (fr : ℕ → Bool) (env : BusEnv) (net : String → FetchOutcome) (pr : Bool)
    (iters : ℕ) (seq : ImageSequencer) :
    runDayLoop IMAGES_PER_CYCLE rescan fr env net false iters seq = (iters, false)
    ∧ ((dayBranch IMAGES_PER_CYCLE seq rescan fr env net pr).bus = .error () ↔
        pr = true
        ∧ (truthy env.stopCodeA || truthy env.stopCodeB || truthy env.stopCodeC) = true
        ∧ ((env.routeA net).isEmpty && (env.routeB net).isEmpty
            && (env.routeC net).isEmpty) = false)
    ∧ ((dayBranch IMAGES_PER_CYCLE seq rescan fr env net pr).bus = .error () →
        runDayLoop IMAGES_PER_CYCLE rescan fr env net pr (iters + 1) seq = (0, true)) := by
  refine ⟨runDayLoop_noRaise IMAGES_PER_CYCLE rescan fr env net iters seq, ?_, ?_⟩
  · show show_bus_arrivals env net pr = .error () ↔ _
    unfold show_bus_arrivals
    by_cases h1 : (!(truthy env.stopCodeA || truthy env.stopCodeB
        || truthy env.stopCodeC)) = true
    · rw [if_pos h1]
      simp only [Bool.not_eq_true'] at h1
      simp [h1]
    · rw [if_neg h1]
      simp only [Bool.not_eq_true', Bool.not_eq_false] at h1
      by_cases h2 : ((env.routeA net).isEmpty && (env.routeB net).isEmpty
          && (env.routeC net).isEmpty) = true
      · rw [if_pos h2]
        simp [h1, h2]
      · rw [if_neg h2]
        simp only [Bool.not_eq_true] at h2
        cases pr with
        | false => simp [h1, h2]
        | true => simp [h1, h2]
  · intro herr
    unfold runDayLoop
    simp [herr]

/-- Counterexample to claim C1: with one configured stop code, a non-empty fetch
result and a transit `epd.display` that raises, the day-branch iteration's
exception is not caught at the iteration level — the loop terminates with 0 of the
5 scheduled iterations completed. -/
theorem C1_counterexample :
    (dayBranch 2 ⟨[], 0⟩ [] (fun _ => false) ⟨some "83139", none, none⟩
        (fun _ => .okResp [⟨"12", .parsed 300, .missing, .missing⟩]) true).bus
      = .error ()
    ∧ runDayLoop 2 [] (fun _ => false) ⟨some "83139", none, none⟩
        (fun _ => .okResp [⟨"12", .parsed 300, .missing, .missing⟩]) true 5 ⟨[], 0⟩
      = (0, true) := by
  have hroute : get_bus_arrival [⟨"12", .parsed 300, .missing, .missing⟩]
      = [("12", [5])] := by
    simp [get_bus_arrival, toRecord, serviceClean, serviceEtas, minutes_parsed,
      minutes_missing, sortByKey, insertByKey]
  have hshow : show_bus_arrivals ⟨some "83139", none, none⟩
      (fun _ => .okResp [⟨"12", .parsed 300, .missing, .missing⟩]) true = .error () := by
    unfold show_bus_arrivals
    rw [if_neg (by simp [truthy]), if_neg
      (by simp [BusEnv.routeA, truthy, get_bus_arrival_net, hroute]), if_pos rfl]
  refine ⟨hshow, ?_⟩
  unfold runDayLoop
  simp [dayBranch, hshow]

/-- Witness for the amended C1: a concrete raising transit display terminates the
3-iteration loop at once. -/
theorem C1_witness :
    runDayLoop 2 [] (fun _ => false) ⟨some "9", none, none⟩
      (fun _ => .okResp [⟨"5", .parsed 0, .missing, .missing⟩]) true 3 ⟨[], 0⟩
      = (0, true) := by
  have hroute : get_bus_arrival [⟨"5", .parsed 0, .missing, .missing⟩]
      = [("5", [0])] := by
    simp [get_bus_arrival, toRecord, serviceClean, serviceEtas, minutes_parsed,
      minutes_missing, sortByKey, insertByKey]
  have h := C1_day_branch_exceptions 2 [] (fun _ => false) ⟨some "9", none, none⟩
    (fun _ => .okResp [⟨"5", .parsed 0, .missing, .missing⟩]) true 2 ⟨[], 0⟩
  exact h.2.2 (h.2.1.mpr ⟨rfl, by decide,
    by simp [BusEnv.routeA, BusEnv.routeB, BusEnv.routeC, truthy,
      get_bus_arrival_net, hroute]⟩)
